import Mathlib

/-!
Verification development for the AIDialogueForge server core
(`src/server/routes.ts`, `src/server/storage.ts`, `src/shared/schema.ts`).

The TypeScript request handlers, the orchestration loop, the WebSocket
broadcaster and the sliding-window rate limiter are shallowly embedded as
executable Lean functions.  External collaborators (the Groq completion
service, the Postgres-backed storage rows, the wall clock, and concurrent
mutation of the conversation row by other requests) are modelled as explicit
parameters / oracles, so each handler becomes a pure function of its inputs.
Timestamps are `Nat` milliseconds (Date.now()).
-/

namespace DialogueForge

/-! ## Rate limiter (routes.ts lines 739-760 and 795-817)

Both the orchestration-start handler and the insight handler keep a
per-IP list of request timestamps and apply the same pattern:

    const requests = map.get(ip)!;
    const recentRequests = requests.filter(time => now - time < WINDOW);
    if (recentRequests.length >= 3) { return 429 (map unchanged); }
    recentRequests.push(now);
    map.set(ip, recentRequests);

`rateLimitCheck window cap hist now` returns the allow/deny decision and
the new per-key timestamp list.  JS computes `now - time` as a possibly
negative number; with `Nat` truncation a future timestamp gives `0 < window`,
i.e. it is kept, exactly as the negative number is `< window` in JS
(timestamps never exceed `now` in practice either way). -/

def recentTimestamps (window : Nat) (hist : List Nat) (now : Nat) : List Nat :=
  hist.filter (fun time => now - time < window)

def rateLimitCheck (window cap : Nat) (hist : List Nat) (now : Nat) :
    Bool × List Nat :=
  let recentRequests := recentTimestamps window hist now
  if recentRequests.length ≥ cap then
    (false, hist)
  else
    (true, recentRequests ++ [now])

/-- Window and cap of the orchestration-start endpoint: 3 per 5 minutes. -/
def orchestrationWindowMs : Nat := 5 * 60 * 1000

/-- Window and cap of the insight endpoint: 3 per minute. -/
def insightWindowMs : Nat := 60 * 1000

def rateLimitCap : Nat := 3

/-- A sequence of calls against one key, threading the stored history. -/
def rateLimitCalls (window cap : Nat) (hist : List Nat) :
    List Nat → List Bool × List Nat
  | [] => ([], hist)
  | now :: rest =>
    let (ok, hist') := rateLimitCheck window cap hist now
    let (oks, histFinal) := rateLimitCalls window cap hist' rest
    (ok :: oks, histFinal)

/-! ## Data model (shared/schema.ts and server/storage.ts)

`conversations` row: id, topic, startedAt, `endedAt` (nullable), `isActive`
(default true), userId (nullable).  The storage layer additionally writes
`status`, `currentTurn` and `lastActivity` (present in the extended schema
variant the storage code is written against); they are carried here because
`DatabaseStorage` mutates them.  Timestamps are `Option Nat` / `Nat`. -/

structure Conversation where
  id : Nat
  topic : String
  startedAt : Nat
  endedAt : Option Nat
  isActive : Bool
  userId : Option Nat
  status : String
  currentTurn : Nat
  lastActivity : Nat
  deriving Repr, DecidableEq

/-- JS truthiness of a nullable numeric id (`conversation.userId && ...`):
`null`/`undefined` and `0` are falsy. -/
def truthyId : Option Nat → Bool
  | none => false
  | some u => u ≠ 0

/-! ## Storage operations on the conversations table
(`DatabaseStorage`, storage.ts lines 121-207, 252-267).

The table is a list of rows; `UPDATE ... WHERE id = ?` maps the row with the
matching id. -/

def updateWhere (store : List Conversation) (id : Nat)
    (f : Conversation → Conversation) : List Conversation :=
  store.map (fun c => if c.id = id then f c else c)

/-- `createConversation` (storage.ts 142-153): inserts `{...conversation,
userId, lastActivity: new Date(), status: 'active'}`; the insert schema omits
`endedAt` / `isActive`, so the database defaults apply: `endedAt` NULL,
`isActive` true.  `serial` primary key modelled as `length + 1`. -/
def createConversation (store : List Conversation) (topic : String)
    (userId : Option Nat) (now : Nat) : List Conversation :=
  store ++ [{ id := store.length + 1, topic := topic, startedAt := now,
              endedAt := none, isActive := true, userId := userId,
              status := "active", currentTurn := 0, lastActivity := now }]

/-- `endConversation` (storage.ts 178-190). -/
def endConversation (store : List Conversation) (id now : Nat) :
    List Conversation :=
  updateWhere store id (fun c =>
    { c with endedAt := some now, isActive := false,
             status := "completed", lastActivity := now })

/-- `updateConversationActivity` (storage.ts 155-164). -/
def updateConversationActivity (store : List Conversation) (id now : Nat) :
    List Conversation :=
  updateWhere store id (fun c => { c with lastActivity := now })

/-- `updateConversationStatus` (storage.ts 166-176). -/
def updateConversationStatus (store : List Conversation) (id : Nat)
    (status : String) (now : Nat) : List Conversation :=
  updateWhere store id (fun c =>
    { c with status := status, lastActivity := now })

/-- `updateConversationTurn` (storage.ts 192-207): increments `currentTurn`.
(The TS reads the row first and is a no-op when it is absent; `updateWhere`
is likewise a no-op then.) -/
def updateConversationTurn (store : List Conversation) (id now : Nat) :
    List Conversation :=
  updateWhere store id (fun c =>
    { c with currentTurn := c.currentTurn + 1, lastActivity := now })

/-- The conversation-table effect of `createMessage` (storage.ts 252-267):
after inserting the message row it calls `updateConversationActivity` then
`updateConversationTurn` on the owning conversation. -/
def createMessageConvEffect (store : List Conversation) (id now : Nat) :
    List Conversation :=
  updateConversationTurn (updateConversationActivity store id now) id now

/-- The exposed mutations of the conversations table in this scope
(conversations are never deleted). -/
inductive ConvOp where
  | create (topic : String) (userId : Option Nat) (now : Nat)
  | endConv (id now : Nat)
  | activity (id now : Nat)
  | status (id : Nat) (s : String) (now : Nat)
  | turn (id now : Nat)
  | persistMessage (id now : Nat)
  deriving Repr

def applyConvOp (store : List Conversation) : ConvOp → List Conversation
  | .create topic userId now => createConversation store topic userId now
  | .endConv id now => endConversation store id now
  | .activity id now => updateConversationActivity store id now
  | .status id s now => updateConversationStatus store id s now
  | .turn id now => updateConversationTurn store id now
  | .persistMessage id now => createMessageConvEffect store id now

def applyConvOps (ops : List ConvOp) : List Conversation :=
  ops.foldl applyConvOp []

/-- The C8 invariant, as a boolean: `endedAt` set iff `isActive` false. -/
def endedIffInactive (c : Conversation) : Bool :=
  c.endedAt.isSome == !c.isActive

/-! ## Realtime broadcaster (setupWebSocketServer / broadcastMessage,
routes.ts lines 27-239) -/

/-- `ws` readyState constants. -/
inductive WsReadyState where
  | CONNECTING
  | OPEN
  | CLOSING
  | CLOSED
  deriving Repr, DecidableEq

/-- A connected client as the broadcaster sees it: its state and whether a
`send` on it would throw (socket torn down under us, buffer error, ...). -/
structure WsClient where
  id : Nat
  readyState : WsReadyState
  sendFails : Bool
  deriving Repr, DecidableEq

/-- `client.send(...)` as a fallible call. -/
def trySend (client : WsClient) : Except String Unit :=
  if client.sendFails then Except.error "Error broadcasting message" else Except.ok ()

/-- `broadcastMessage` (routes.ts 229-239): iterate over `wss.clients`; for a
client in `OPEN` state, `try { client.send(...) } catch (err) { log }`.
Returns the attempt log: one `(client id, send succeeded)` entry per
attempted send, in client order; a caught failure only shows up in the log
and never stops the iteration. -/
def broadcastMessage : List WsClient → List (Nat × Bool)
  | [] => []
  | client :: rest =>
    if client.readyState = WsReadyState.OPEN then
      (client.id,
        match trySend client with
        | Except.ok _ => true
        | Except.error _ => false) :: broadcastMessage rest
    else
      broadcastMessage rest

/-! ## WebSocket connection establishment (routes.ts lines 113-162) -/

/-- JS `String.prototype.split` with a one-character separator, on the
character list: `"".split(s)` is `[""]`, separators at the ends produce empty
fragments. -/
def splitOnChar (sep : Char) : List Char → List (List Char)
  | [] => [[]]
  | c :: rest =>
    if c = sep then
      [] :: splitOnChar sep rest
    else
      match splitOnChar sep rest with
      | [] => [[c]]
      | group :: groups => (c :: group) :: groups

def jsSplit (sep : Char) (s : String) : List String :=
  (splitOnChar sep s.data).map (fun cs => String.mk cs)

/-- `new URLSearchParams(url.split('?')[1]).get(key)`: the text between the
first and second `?` is parsed as `&`-separated `key=value` pairs; the first
pair whose key matches wins; the value is everything after the first `=`
(a pair with no `=` has value `""`).  Percent-decoding is omitted: session
identifiers are UUIDs, which contain no characters that URL-encoding would
alter. -/
def queryParamValue (url key : String) : Option String :=
  match (jsSplit '?' url).get? 1 with
  | none => none
  | some query =>
    (jsSplit '&' query).findSome? (fun pair =>
      match jsSplit '=' pair with
      | [] => none
      | k :: rest => if k = key then some (String.intercalate "=" rest) else none)

/-- Session id selection on connection (routes.ts line 117):
`request.url ? new URLSearchParams(request.url.split('?')[1]).get('sessionId')
|| crypto.randomUUID() : crypto.randomUUID()`.  `freshId` stands for the
`crypto.randomUUID()` result; a missing url, a missing parameter, or the
falsy `""` value all fall through to it. -/
def connectionSessionId (url? : Option String) (freshId : String) : String :=
  match url? with
  | none => freshId
  | some url =>
    match queryParamValue url "sessionId" with
    | some v => if v = "" then freshId else v
    | none => freshId

/-- The event sent immediately after the connection is tracked
(routes.ts 150-162). -/
structure ConnectionEstablishedEvent where
  type : String
  message : String
  sessionId : String
  timestamp : Nat
  deriving Repr, DecidableEq

def welcomeEvent (url? : Option String) (freshId : String) (now : Nat) :
    ConnectionEstablishedEvent :=
  { type := "CONNECTION_ESTABLISHED",
    message := "Connected to Neural Nexus server",
    sessionId := connectionSessionId url? freshId,
    timestamp := now }

/-! ## Conversation REST handlers (routes.ts lines 464-554) -/

/-- `getConversations` (storage.ts 121-130): with a truthy `userId` the
select filters `eq(conversations.userId, userId)`; SQL equality never
matches a NULL `user_id`, so that branch returns only rows owned by exactly
that user.  Without a truthy `userId` the whole table is returned.  (The
`ORDER BY started_at DESC` only permutes the result and is not modelled;
the claims about this function are about membership.) -/
def getConversations (store : List Conversation) (userId : Option Nat) :
    List Conversation :=
  if truthyId userId then store.filter (fun c => c.userId == userId)
  else store

inductive GetConvRes where
  | notAuthenticated
  | notFound
  | accessDenied
  | ok (c : Conversation)
  deriving Repr, DecidableEq

/-- GET `/api/conversations/:id` (routes.ts 478-501): 401 when not
authenticated, 404 when the row is absent, 403 when
`conversation.userId && conversation.userId !== userId`, else the row. -/
def getConversationHandler (authed : Bool) (userId : Option Nat)
    (conv? : Option Conversation) : GetConvRes :=
  if !authed then GetConvRes.notAuthenticated else
  match conv? with
  | none => GetConvRes.notFound
  | some c =>
    if truthyId c.userId && c.userId ≠ userId then GetConvRes.accessDenied
    else GetConvRes.ok c

inductive ListConvRes where
  | notAuthenticated
  | ok (convs : List Conversation)
  deriving Repr, DecidableEq

/-- GET `/api/conversations` (routes.ts 464-476). -/
def listConversationsHandler (authed : Bool) (userId : Option Nat)
    (store : List Conversation) : ListConvRes :=
  if !authed then ListConvRes.notAuthenticated
  else ListConvRes.ok (getConversations store userId)

/-- The `{type, data}` events sent over the WebSocket channel (the payloads
carried beyond these fields play no role in the claims). -/
inductive WsEvent where
  | NEW_CONVERSATION
  | NEW_MESSAGE (agentPersonalityId : Nat) (content : String)
  | END_CONVERSATION
  deriving Repr, DecidableEq

inductive EndConvRes where
  | notAuthenticated
  | notFound
  | accessDenied
  | ended (c : Conversation)
  deriving Repr, DecidableEq

/-- POST `/api/conversations/:id/end` (routes.ts 525-554): after the
ownership check it runs `storage.endConversation` and broadcasts one
`END_CONVERSATION` event.  Returns the response together with the list of
events this handler broadcasts. -/
def endConversationHandler (authed : Bool) (userId : Option Nat)
    (conv? : Option Conversation) (now : Nat) : EndConvRes × List WsEvent :=
  if !authed then (EndConvRes.notAuthenticated, []) else
  match conv? with
  | none => (EndConvRes.notFound, [])
  | some c =>
    if truthyId c.userId && c.userId ≠ userId then (EndConvRes.accessDenied, [])
    else
      let c' := { c with
        endedAt := some now, isActive := false,
        status := "completed", lastActivity := now }
      (EndConvRes.ended c', [WsEvent.END_CONVERSATION])

/-! ## Orchestration-start handler (routes.ts lines 717-784) -/

structure OrchRequestBody where
  conversationId : Nat
  topic : String
  agentPersonalityIds : List Nat
  turnCount : Nat
  deriving Repr, DecidableEq

inductive OrchStartRes where
  | notAuthenticated
  | invalidParams
  | rateLimited (retryAfter : Nat)
  | notFound
  | accessDenied
  | started
  deriving Repr, DecidableEq

/-- POST `/api/conversations/orchestrate` up to spawning the background run:
auth check, parameter validation (`!conversationId || !topic ||
!agentPersonalityIds || agentPersonalityIds.length < 2`, falsy number / falsy
string modelled as 0 / ""), then the rate-limit bookkeeping, and only after
the timestamp has been appended the conversation lookup and ownership check.
Returns the response and the per-IP timestamp list after the call. -/
def orchestrateStartHandler (authed : Bool) (userId : Option Nat)
    (body : OrchRequestBody) (hist : List Nat) (now : Nat)
    (conv? : Option Conversation) : OrchStartRes × List Nat :=
  if !authed then (OrchStartRes.notAuthenticated, hist) else
  if body.conversationId = 0 || body.topic = "" ||
      body.agentPersonalityIds.length < 2 then
    (OrchStartRes.invalidParams, hist)
  else
    let recentRequests := recentTimestamps orchestrationWindowMs hist now
    if recentRequests.length ≥ rateLimitCap then
      (OrchStartRes.rateLimited (5 * 60 - (now - recentRequests.headD 0) / 1000),
        hist)
    else
      let hist' := recentRequests ++ [now]
      match conv? with
      | none => (OrchStartRes.notFound, hist')
      | some c =>
        if truthyId c.userId && c.userId ≠ userId then
          (OrchStartRes.accessDenied, hist')
        else (OrchStartRes.started, hist')

/-! ## Messages and the Groq completion call with model fallback -/

/-- A persisted message row, with the fields the orchestrator writes
(routes.ts 1310-1323). -/
structure Message where
  conversationId : Nat
  agentPersonalityId : Nat
  content : String
  messageType : String
  model : String
  temperature : Option String
  tokenCount : Nat
  deriving Repr, DecidableEq

/-- An agent personality row, restricted to the fields the orchestration
loop and the completion call read. -/
structure AgentPersonality where
  id : Nat
  name : String
  model : String
  systemPrompt : String
  temperature : Option String
  color : String
  deriving Repr, DecidableEq

structure ChatCompletion where
  content : String
  promptTokens : Nat
  completionTokens : Nat
  deriving Repr, DecidableEq

structure GroqError where
  message : String
  deriving Repr, DecidableEq

def startsWithChars : List Char → List Char → Bool
  | [], _ => true
  | _ :: _, [] => false
  | a :: as, b :: bs => a = b && startsWithChars as bs

/-- JS `String.prototype.includes`: does `haystack` contain `needle`? -/
def occursWithin (needle : List Char) : List Char → Bool
  | [] => needle.isEmpty
  | c :: rest => startsWithChars needle (c :: rest) || occursWithin needle rest

def containsSubstr (haystack needle : String) : Bool :=
  occursWithin needle.data haystack.data

/-- The model-not-found/unavailable classification (routes.ts 641 / 1266):
`error.message?.includes('model') || error.message?.includes('not found') ||
error.message?.includes('unavailable')`. -/
def isModelUnavailableError (message : String) : Bool :=
  containsSubstr message "model" || containsSubstr message "not found" ||
    containsSubstr message "unavailable"

/-- The hardcoded known-good small model. -/
def groqDefaultModel : String := "llama3-8b-8192"

/-- Fallback-model validation (routes.ts 647-649 / 1272-1274):
`availableModels.find(m => m.id === 'llama3-8b-8192') ? 'llama3-8b-8192' :
(availableModels.length > 0 ? availableModels[0].id : 'llama3-8b-8192')`.
`availableModels` is the live catalog returned by `fetchGroqModels` (which
itself falls back to a hardcoded non-empty list when the fetch fails, so the
handler always receives a plain list). -/
def validatedFallbackModel (availableModels : List String) : String :=
  if availableModels.contains groqDefaultModel then groqDefaultModel
  else
    match availableModels with
    | [] => groqDefaultModel
    | m :: _ => m

/-- One completion call with the fallback handling of routes.ts 626-680 /
1250-1305.  `provider` is the Groq chat-completion service, indexed by a
call counter so that distinct physical calls are distinct; the function
returns the sequence of model ids actually sent, the next call counter, and
the final outcome.  A primary-call failure classified as model-unavailable
triggers one retry against the validated fallback model; if that retry
itself throws, the catch issues a last-resort call with the hardcoded
default model (whose outcome, success or failure, is final).  Any other
primary-call error is re-thrown without a retry. -/
def completionWithFallback (provider : Nat → String → Except GroqError ChatCompletion)
    (availableModels : List String) (callIdx : Nat) (model : String) :
    List String × Nat × Except GroqError ChatCompletion :=
  match provider callIdx model with
  | Except.ok completion => ([model], callIdx + 1, Except.ok completion)
  | Except.error e =>
    if isModelUnavailableError e.message then
      let fallbackModel := validatedFallbackModel availableModels
      match provider (callIdx + 1) fallbackModel with
      | Except.ok completion =>
        ([model, fallbackModel], callIdx + 2, Except.ok completion)
      | Except.error _ =>
        ([model, fallbackModel, groqDefaultModel], callIdx + 3,
          provider (callIdx + 2) groqDefaultModel)
    else
      ([model], callIdx + 1, Except.error e)

/-! ## The orchestration loop (orchestrateConversation, routes.ts 1193-1355)

The loop runs as a background task while the `/end` handler can flip the
conversation's `isActive` flag concurrently.  Its reads of the row are
therefore an oracle `liveAt : Nat → Bool`: the result (row present AND
`isActive`) of the i-th `storage.getConversation` call of the run.  Messages
and events are tagged with the number of liveness reads completed when they
were produced, which totally orders them against the reads. -/

structure OrchEnv where
  liveAt : Nat → Bool
  personalities : Nat → Option AgentPersonality
  provider : Nat → String → Except GroqError ChatCompletion
  availableModels : List String

structure RunState where
  msgs : List (Nat × Message)
  events : List (Nat × WsEvent)
  reads : Nat
  calls : Nat
  aborted : Bool

/-- The inner `for (const agentPersonality of agentPersonalities)` loop body
(routes.ts 1235-1340): completion with fallback; on success persist the
message and broadcast `NEW_MESSAGE`, sleep, then re-read the conversation
and abort if it is gone or inactive; a completion error that survives the
fallback handling propagates to the run's top-level catch, aborting it. -/
def runAgents (env : OrchEnv) (conversationId : Nat) :
    List AgentPersonality → RunState → RunState
  | [], st => st
  | agent :: rest, st =>
    if st.aborted then st else
    match completionWithFallback env.provider env.availableModels st.calls
        agent.model with
    | (_, calls', Except.error _) => { st with calls := calls', aborted := true }
    | (_, calls', Except.ok completion) =>
      let row : Message :=
        { conversationId := conversationId, agentPersonalityId := agent.id,
          content := completion.content, messageType := "standard",
          model := agent.model, temperature := agent.temperature,
          tokenCount := completion.promptTokens + completion.completionTokens }
      runAgents env conversationId rest
        { msgs := st.msgs ++ [(st.reads, row)],
          events := st.events ++
            [(st.reads, WsEvent.NEW_MESSAGE agent.id completion.content)],
          reads := st.reads + 1,
          calls := calls',
          aborted := !(env.liveAt st.reads) }

/-- The outer `for (let turn = 0; turn < turnCount; turn++)` loop
(routes.ts 1226-1341): each turn re-reads the conversation first and aborts
the whole run if it is gone or inactive, then lets each agent take a turn. -/
def runTurns (env : OrchEnv) (conversationId : Nat)
    (agents : List AgentPersonality) : Nat → RunState → RunState
  | 0, st => st
  | t + 1, st =>
    if st.aborted then st else
    let live := env.liveAt st.reads
    let st' := { st with reads := st.reads + 1, aborted := !live }
    if live then runTurns env conversationId agents t (runAgents env conversationId agents st')
    else st'

structure RunOut where
  msgs : List (Nat × Message)
  events : List (Nat × WsEvent)
  endedRun : Bool

/-- `orchestrateConversation` (routes.ts 1193-1355): initial fetch (read 0,
silent abort when missing or inactive), resolution of the agent ids in order
keeping only the ones found (silent abort when fewer than 2 resolve), the
turn loop, and — only when no turn aborted — `storage.endConversation` plus
one `END_CONVERSATION` broadcast.  Exceptions inside the loop are caught at
the top level (folded into the aborted flag); partial progress is kept. -/
def orchestrateConversation (env : OrchEnv) (conversationId : Nat)
    (agentPersonalityIds : List Nat) (turnCount : Nat) : RunOut :=
  if !(env.liveAt 0) then ⟨[], [], false⟩
  else
    let agentPersonalities := agentPersonalityIds.filterMap env.personalities
    if agentPersonalities.length < 2 then ⟨[], [], false⟩
    else
      let st := runTurns env conversationId agentPersonalities turnCount
        ⟨[], [], 1, 0, false⟩
      if st.aborted then ⟨st.msgs, st.events, false⟩
      else ⟨st.msgs, st.events ++ [(st.reads, WsEvent.END_CONVERSATION)], true⟩

/-! ## Insight generation (routes.ts lines 787-888) -/

def trimChars (cs : List Char) : List Char :=
  ((cs.dropWhile Char.isWhitespace).reverse.dropWhile Char.isWhitespace).reverse

/-- JS `String.prototype.trim`. -/
def jsTrim (s : String) : String :=
  String.mk (trimChars s.data)

/-- The regex replace `line.replace(/^\d+\.\s*/, '')`: when the line starts
with one or more digits followed by a literal dot, that prefix and any
whitespace after it is removed; otherwise the line is unchanged. -/
def stripLeadingNumbering (s : String) : String :=
  let cs := s.data
  let digits := cs.takeWhile Char.isDigit
  if digits.isEmpty then s
  else
    match cs.drop digits.length with
    | '.' :: rest => String.mk (rest.dropWhile Char.isWhitespace)
    | _ => s

/-- Insight parsing (routes.ts 876-879): split the reply on newlines, keep
the lines that are nonempty after trimming, remove the leading numbering and
trim each. -/
def parseInsights (response : String) : List String :=
  ((jsSplit '\n' response).filter (fun line => (jsTrim line).length > 0)).map
    (fun line => jsTrim (stripLeadingNumbering line))

inductive InsightsRes where
  | notAuthenticated
  | rateLimited (retryAfter : Nat)
  | notFound
  | accessDenied
  | noMessages
  | serviceUnavailable
  | ok (insights : List String)
  deriving Repr, DecidableEq

/-- POST `/api/conversations/:id/insights` (routes.ts 787-888): auth, rate
limit (3 per minute per IP), conversation lookup, ownership check, reject
when the conversation has no messages, then the Groq call (`.ok reply` /
`.error` for its outcome) and `insights.slice(0, 5)` of the parsed lines.
The middle component of the result records whether the completion service
was called. -/
def insightsHandler (authed : Bool) (userId : Option Nat) (hist : List Nat)
    (now : Nat) (conv? : Option Conversation) (messages : List Message)
    (completionReply : Except GroqError String) :
    InsightsRes × Bool × List Nat :=
  if !authed then (InsightsRes.notAuthenticated, false, hist) else
  let recentRequests := recentTimestamps insightWindowMs hist now
  if recentRequests.length ≥ rateLimitCap then
    (InsightsRes.rateLimited (60 - (now - recentRequests.headD 0) / 1000),
      false, hist)
  else
    let hist' := recentRequests ++ [now]
    match conv? with
    | none => (InsightsRes.notFound, false, hist')
    | some c =>
      if truthyId c.userId && c.userId ≠ userId then
        (InsightsRes.accessDenied, false, hist')
      else if messages.length = 0 then (InsightsRes.noMessages, false, hist')
      else
        match completionReply with
        | Except.error _ => (InsightsRes.serviceUnavailable, true, hist')
        | Except.ok reply =>
          (InsightsRes.ok ((parseInsights reply).take 5), true, hist')

/-! ## Concrete rows used by the counterexamples -/

/-- A conversation owned by nobody (`user_id` NULL) that is still active. -/
def unownedConversation : Conversation :=
  { id := 7, topic := "Galaxies", startedAt := 0, endedAt := none,
    isActive := true, userId := none, status := "active", currentTurn := 0,
    lastActivity := 0 }

/-- A message row of that conversation. -/
def sampleMessage : Message :=
  { conversationId := 7, agentPersonalityId := 1, content := "hello",
    messageType := "standard", model := "llama3-70b-8192",
    temperature := some "0.7", tokenCount := 3 }

/-- Tag discipline of a run whose conversation is first observed inactive at
liveness read `f` (the reads return active exactly for indices below `f`):
every persisted message and every broadcast event carries a tag at most `f`
(nothing is produced after the failing read), the run broadcasts no
`END_CONVERSATION`, and while it has not aborted it has completed at most
`f` reads. -/
def StoppedAt (f : Nat) (st : RunState) : Prop :=
  (∀ p ∈ st.msgs, p.1 ≤ f) ∧
  (∀ p ∈ st.events, p.1 ≤ f ∧ p.2 ≠ WsEvent.END_CONVERSATION) ∧
  (st.aborted = false → st.reads ≤ f)

/-- A completion service that rejects the model id "bad-model" with a
model-unavailable message and answers every other model. -/
def demoProvider : Nat → String → Except GroqError ChatCompletion :=
  fun _ model =>
    if model = "bad-model" then
      Except.error { message := "The model bad-model does not exist" }
    else Except.ok { content := "fallback reply", promptTokens := 10,
                     completionTokens := 20 }

def demoAgent : AgentPersonality :=
  { id := 1, name := "NOVA", model := "bad-model", systemPrompt := "p",
    temperature := some "0.7", color := "#9D63FF" }

def demoEnvFallback : OrchEnv :=
  { liveAt := fun _ => true, personalities := fun _ => none,
    provider := demoProvider, availableModels := ["llama3-8b-8192"] }

/-- An environment whose conversation row stays active, whose agent lookups
all resolve (with matching primary keys), and whose provider always
answers. -/
def demoEnvLive : OrchEnv :=
  { liveAt := fun _ => true,
    personalities := fun i =>
      some { id := i, name := "AGENT", model := "llama3-70b-8192",
             systemPrompt := "p", temperature := some "0.7", color := "#fff" },
    provider := fun _ _ =>
      Except.ok { content := "hi", promptTokens := 1, completionTokens := 2 },
    availableModels := [] }

/-- The same environment except that the conversation is observed inactive
from the third liveness read on (the `/end` request lands during the pacing
delay after the second agent message). -/
def demoEnvStop : OrchEnv :=
  { liveAt := fun i => decide (i < 3),
    personalities := demoEnvLive.personalities,
    provider := demoEnvLive.provider,
    availableModels := [] }

/-- C4: the rate limiter is a sliding window per key: on each call, timestamps
older than the window are dropped and the request is allowed iff the pruned
count is below the cap, in which case the current timestamp is appended; with
a cap of 3 per window, 3 calls in quick succession (all within one window) are
allowed, a 4th immediate call is denied, and a call after the window has
elapsed is allowed again. -/
theorem rateLimit_sliding_window (window t1 t2 t3 t4 t5 : Nat)
    (h12 : t1 ≤ t2) (h23 : t2 ≤ t3) (h34 : t3 ≤ t4)
    (hwin : t4 - t1 < window) (helapsed : t3 + window ≤ t5) :
    (∀ hist now, (rateLimitCheck window rateLimitCap hist now).1 =
        decide ((recentTimestamps window hist now).length < rateLimitCap)) ∧
    (∀ hist now, (recentTimestamps window hist now).length < rateLimitCap →
        (rateLimitCheck window rateLimitCap hist now).2 =
          recentTimestamps window hist now ++ [now]) ∧
    (rateLimitCalls window rateLimitCap [] [t1, t2, t3, t4, t5]).1 =
      [true, true, true, false, true] := by
  refine ⟨fun hist now => ?_, fun hist now h => ?_, ?_⟩
  · by_cases h : (recentTimestamps window hist now).length ≥ rateLimitCap
    · simp [rateLimitCheck, h, Nat.not_lt.2 h]
    · simp [rateLimitCheck, h, Nat.lt_of_not_le h]
  · have h' : ¬ (recentTimestamps window hist now).length ≥ rateLimitCap :=
      Nat.not_le.2 h
    simp [rateLimitCheck, h']
  · have f21 : t2 - t1 < window := by omega
    have f31 : t3 - t1 < window := by omega
    have f32 : t3 - t2 < window := by omega
    have f42 : t4 - t2 < window := by omega
    have f43 : t4 - t3 < window := by omega
    have g51 : ¬ (t5 - t1 < window) := by omega
    have g52 : ¬ (t5 - t2 < window) := by omega
    have g53 : ¬ (t5 - t3 < window) := by omega
    simp [rateLimitCalls, rateLimitCheck, recentTimestamps, rateLimitCap,
      f21, f31, f32, hwin, f42, f43, g51, g52, g53]

/-- Witness for C4 at window 60, calls at times 0,0,0,0,60. -/
theorem rateLimit_sliding_window_witness :
    (rateLimitCalls 60 rateLimitCap [] [0, 0, 0, 0, 60]).1 =
      [true, true, true, false, true] :=
  (rateLimit_sliding_window 60 0 0 0 0 60 (by decide) (by decide) (by decide)
    (by decide) (by decide)).2.2

theorem endedIffInactive_updateWhere (store : List Conversation) (id : Nat)
    (f : Conversation → Conversation)
    (hf : ∀ c, endedIffInactive c = true → endedIffInactive (f c) = true)
    (h : store.all endedIffInactive = true) :
    (updateWhere store id f).all endedIffInactive = true := by
  simp only [updateWhere, List.all_map, List.all_eq_true, Function.comp] at *
  intro c hc
  by_cases hid : c.id = id
  · simpa [hid] using hf c (h c hc)
  · simpa [hid] using h c hc

theorem endedIffInactive_applyConvOp (store : List Conversation) (op : ConvOp)
    (h : store.all endedIffInactive = true) :
    (applyConvOp store op).all endedIffInactive = true := by
  cases op with
  | create topic userId now =>
    simp only [applyConvOp, createConversation, List.all_append, h,
      Bool.true_and, List.all_cons, List.all_nil]
    rfl
  | endConv id now =>
    exact endedIffInactive_updateWhere store id _ (fun c _ => rfl) h
  | activity id now =>
    refine endedIffInactive_updateWhere store id _ (fun c hc => ?_) h
    simpa [endedIffInactive] using hc
  | status id s now =>
    refine endedIffInactive_updateWhere store id _ (fun c hc => ?_) h
    simpa [endedIffInactive] using hc
  | turn id now =>
    refine endedIffInactive_updateWhere store id _ (fun c hc => ?_) h
    simpa [endedIffInactive] using hc
  | persistMessage id now =>
    refine endedIffInactive_updateWhere _ id _ (fun c hc => ?_)
      (endedIffInactive_updateWhere store id _ (fun c hc => ?_) h) <;>
      simpa [endedIffInactive] using hc

theorem endedIffInactive_foldl (ops : List ConvOp)
    (store : List Conversation)
    (h : store.all endedIffInactive = true) :
    (ops.foldl applyConvOp store).all endedIffInactive = true := by
  induction ops generalizing store with
  | nil => exact h
  | cons op rest ih =>
    exact ih (applyConvOp store op) (endedIffInactive_applyConvOp store op h)

/-- C8: after any sequence of the exposed conversation operations (create,
end, message persistence, activity/status/turn updates) every conversation
row satisfies `endedAt` set ⇔ `isActive = false`; creation yields an active
row with `endedAt` unset, and ending sets `endedAt` and clears `isActive`
together. -/
theorem conversation_endedAt_iff_inactive :
    (∀ ops : List ConvOp,
      (applyConvOps ops).all endedIffInactive = true) ∧
    (∀ store topic userId now, ∃ r,
      createConversation store topic userId now = store ++ [r] ∧
      r.isActive = true ∧ r.endedAt = none) ∧
    (∀ store id now,
      (endConversation store id now).all
        (fun c => c.id ≠ id || (c.endedAt == some now && !c.isActive)) =
        true) := by
  refine ⟨fun ops => endedIffInactive_foldl ops [] rfl,
    fun store topic userId now => ⟨_, rfl, rfl, rfl⟩,
    fun store id now => ?_⟩
  simp only [endConversation, updateWhere, List.all_map, List.all_eq_true,
    Function.comp]
  intro c _
  by_cases hid : c.id = id <;> simp [hid]

/-- Witness for C8: a concrete create/persist/end trace keeps the invariant. -/
theorem conversation_endedAt_iff_inactive_witness :
    (applyConvOps [ConvOp.create "T" (some 1) 5, ConvOp.persistMessage 1 6,
      ConvOp.endConv 1 7]).all endedIffInactive = true :=
  conversation_endedAt_iff_inactive.1
    [ConvOp.create "T" (some 1) 5, ConvOp.persistMessage 1 6,
      ConvOp.endConv 1 7]

/-- C9: `broadcastMessage` attempts delivery to every connection currently in
`OPEN` state — the attempt log lists exactly the `OPEN` clients, in order,
whatever the individual send outcomes are — so a send failure on one
connection (caught inside the per-client try/catch and only recorded in the
log) never propagates and never prevents the send to any other connection. -/
theorem broadcastMessage_reaches_every_open_client (clients : List WsClient) :
    (broadcastMessage clients).map Prod.fst =
      (clients.filter (fun c => c.readyState = WsReadyState.OPEN)).map
        WsClient.id := by
  induction clients with
  | nil => rfl
  | cons client rest ih =>
    by_cases h : client.readyState = WsReadyState.OPEN
    · simp [broadcastMessage, h, ih]
    · simp [broadcastMessage, h, ih]

/-- C6: the event sent on `OPEN` is a CONNECTION_ESTABLISHED event whose
session identifier is the client-supplied `sessionId` query parameter when
one was provided in the upgrade request, else the freshly generated id; so a
reconnecting client gets its previous id echoed back. -/
theorem connection_established_echoes_session_id (url freshId v : String)
    (hv : queryParamValue url "sessionId" = some v) (hne : v ≠ "") :
    (welcomeEvent (some url) freshId 0).type = "CONNECTION_ESTABLISHED" ∧
    (welcomeEvent (some url) freshId 0).sessionId = v ∧
    (∀ url' freshId' now, queryParamValue url' "sessionId" = none →
      (welcomeEvent (some url') freshId' now).sessionId = freshId') ∧
    (∀ freshId' now, (welcomeEvent none freshId' now).sessionId = freshId') := by
  refine ⟨rfl, ?_, fun url' freshId' now h => ?_, fun freshId' now => rfl⟩
  · simp [welcomeEvent, connectionSessionId, hv, hne]
  · simp [welcomeEvent, connectionSessionId, h]

/-- Witness for C6: a reconnect with `?sessionId=abc-123` is echoed back. -/
theorem connection_established_echoes_session_id_witness :
    (welcomeEvent (some "/ws?sessionId=abc-123") "fresh-uuid" 0).sessionId =
      "abc-123" :=
  (connection_established_echoes_session_id "/ws?sessionId=abc-123"
    "fresh-uuid" "abc-123" (by decide) (by decide)).2.1

/-- C7 counterexample: an unowned conversation (NULL `user_id`) is returned
by the fetch-by-id handler with no permission error, but the listing for the
same authenticated user (id 1) is empty even though the store holds exactly
that conversation — the `eq(conversations.userId, userId)` filter drops
unowned rows, so the claim that listing also returns it is false. -/
theorem unowned_conversation_listing_counterexample :
    unownedConversation.userId = none ∧
    getConversationHandler true (some 1) (some unownedConversation) =
      GetConvRes.ok unownedConversation ∧
    listConversationsHandler true (some 1) [unownedConversation] =
      ListConvRes.ok [] := by
  refine ⟨rfl, by decide, by decide⟩

/-- C7 amended: an unowned conversation is visible to every authenticated
user through fetch-by-id with no permission error; the owner-filtered
listing, however, returns only conversations owned by the requesting user,
so it never returns an unowned conversation. -/
theorem unowned_conversation_visibility (c : Conversation) (u : Nat)
    (store : List Conversation) (hc : c.userId = none) (hu : u ≠ 0) :
    getConversationHandler true (some u) (some c) = GetConvRes.ok c ∧
    (∀ x ∈ getConversations store (some u), x.userId = some u) ∧
    c ∉ getConversations store (some u) := by
  have ht : truthyId (some u) = true := by simp [truthyId, hu]
  have hmem : ∀ x ∈ getConversations store (some u), x.userId = some u := by
    intro x hx
    simp only [getConversations, ht, if_pos] at hx
    have hp : (x.userId == some u) = true := (List.mem_filter.1 hx).2
    exact beq_iff_eq.1 hp
  refine ⟨?_, hmem, fun hmem' => ?_⟩
  · simp [getConversationHandler, hc, truthyId]
  · rw [hmem c hmem'] at hc
    exact Option.noConfusion hc

/-- Witness for the amended C7 at user 1 and a one-row store. -/
theorem unowned_conversation_visibility_witness :
    getConversationHandler true (some 1) (some unownedConversation) =
      GetConvRes.ok unownedConversation ∧
    unownedConversation ∉ getConversations [unownedConversation] (some 1) :=
  ⟨(unowned_conversation_visibility unownedConversation 1 [unownedConversation]
      rfl (by decide)).1,
   (unowned_conversation_visibility unownedConversation 1 [unownedConversation]
      rfl (by decide)).2.2⟩

/-- C10: the orchestration-start handler records the caller's timestamp in
the rate-limit window before the conversation's existence and ownership are
checked: a request that passes parameter validation and is under the cap has
its timestamp appended even when it then fails with not-found or
access-denied. -/
theorem orchestration_rate_limit_before_ownership (userId : Option Nat)
    (body : OrchRequestBody) (hist : List Nat) (now : Nat)
    (conv? : Option Conversation)
    (hcid : body.conversationId ≠ 0) (htopic : body.topic ≠ "")
    (hagents : 2 ≤ body.agentPersonalityIds.length)
    (hcap : (recentTimestamps orchestrationWindowMs hist now).length <
      rateLimitCap) :
    (conv? = none →
      orchestrateStartHandler true userId body hist now conv? =
        (OrchStartRes.notFound,
          recentTimestamps orchestrationWindowMs hist now ++ [now])) ∧
    (∀ c, conv? = some c → truthyId c.userId = true → c.userId ≠ userId →
      orchestrateStartHandler true userId body hist now conv? =
        (OrchStartRes.accessDenied,
          recentTimestamps orchestrationWindowMs hist now ++ [now])) := by
  have hvalid : (body.conversationId = 0 || body.topic = "" ||
      body.agentPersonalityIds.length < 2) = false := by
    simp only [Bool.or_eq_false_iff, decide_eq_false_iff_not]
    exact ⟨⟨hcid, htopic⟩, by omega⟩
  have hcap' : ¬ (recentTimestamps orchestrationWindowMs hist now).length ≥
      rateLimitCap := Nat.not_le.2 hcap
  constructor
  · intro h
    subst h
    simp [orchestrateStartHandler, hvalid, hcap']
  · intro c h htr hne
    subst h
    simp [orchestrateStartHandler, hvalid, hcap', htr, hne]

/-- Witness for C10: a valid under-cap request for a missing conversation is
answered 404 and its timestamp is still recorded. -/
theorem orchestration_rate_limit_before_ownership_witness :
    orchestrateStartHandler true (some 1)
      { conversationId := 5, topic := "T", agentPersonalityIds := [1, 2],
        turnCount := 3 } [] 42 none = (OrchStartRes.notFound, [42]) := by
  have h := (orchestration_rate_limit_before_ownership (some 1)
    { conversationId := 5, topic := "T", agentPersonalityIds := [1, 2],
      turnCount := 3 } [] 42 none (by decide) (by decide) (by decide)
    (by decide)).1 rfl
  exact h

/-- C5 counterexample: an insight request on a conversation whose `isActive`
flag is still true is not rejected — the handler runs the completion call
(second component `true`) and returns parsed insights, so the claim that
such requests are rejected without calling the completion service is false. -/
theorem insights_active_conversation_counterexample :
    unownedConversation.isActive = true ∧
    insightsHandler true (some 1) [] 0 (some unownedConversation)
      [sampleMessage] (Except.ok "1. First\n2. Second") =
      (InsightsRes.ok ["First", "Second"], true, [0]) := by
  refine ⟨rfl, by decide⟩

/-- C5 amended: the insight handler never inspects the conversation's active
flag — a request on a conversation that has not ended proceeds exactly like
any other: when it passes the rate limit, existence, ownership and
non-empty-message checks, the completion service is called and at most 5
numbered-line insights parsed from the reply are returned. -/
theorem insights_no_ended_requirement (userId : Option Nat)
    (c : Conversation) (messages : List Message) (reply : String)
    (hist : List Nat) (now : Nat)
    (_hactive : c.isActive = true)
    (hcap : (recentTimestamps insightWindowMs hist now).length < rateLimitCap)
    (howner : truthyId c.userId = false ∨ c.userId = userId)
    (hmsgs : messages ≠ []) :
    insightsHandler true userId hist now (some c) messages
        (Except.ok reply) =
      (InsightsRes.ok ((parseInsights reply).take 5), true,
        recentTimestamps insightWindowMs hist now ++ [now]) ∧
    ((parseInsights reply).take 5).length ≤ 5 := by
  have hcap' : ¬ (recentTimestamps insightWindowMs hist now).length ≥
      rateLimitCap := Nat.not_le.2 hcap
  have hlen : ¬ messages.length = 0 := by
    simpa [List.length_eq_zero] using hmsgs
  constructor
  · rcases howner with h | h
    · simp [insightsHandler, hcap', h, hlen]
    · simp [insightsHandler, hcap', h, hlen]
  · exact List.length_take_le 5 (parseInsights reply)

/-- Witness for the amended C5: the concrete active-conversation request. -/
theorem insights_no_ended_requirement_witness :
    insightsHandler true (some 1) [] 0 (some unownedConversation)
      [sampleMessage] (Except.ok "1. First\n2. Second") =
      (InsightsRes.ok ["First", "Second"], true, [0]) := by
  have h := (insights_no_ended_requirement (some 1) unownedConversation
    [sampleMessage] "1. First\n2. Second" [] 0 rfl (by decide)
    (Or.inl rfl) (by decide)).1
  exact h

/-- C3: when the provider rejects the configured model with a
model-not-found/unavailable class of error and the retry against the
validated fallback model succeeds, exactly one retried call is made (the
call sequence is the configured model followed by the validated fallback
model) and the message the orchestrator persists carries the successful
completion's content; any other class of error makes no retry (the call
sequence is just the configured model), propagates, and aborts the run with
nothing persisted for that agent. -/
theorem completion_model_fallback (env : OrchEnv)
    (provider : Nat → String → Except GroqError ChatCompletion)
    (models : List String) (k conversationId : Nat)
    (agent : AgentPersonality) (st : RunState) (e : GroqError)
    (completion : ChatCompletion)
    (henv : env.provider = provider) (hmodels : env.availableModels = models)
    (hst : st.aborted = false) (hcalls : st.calls = k) :
    (provider k agent.model = Except.error e →
      isModelUnavailableError e.message = true →
      provider (k + 1) (validatedFallbackModel models) =
        Except.ok completion →
      completionWithFallback provider models k agent.model =
        ([agent.model, validatedFallbackModel models], k + 2,
          Except.ok completion) ∧
      (runAgents env conversationId [agent] st).msgs =
        st.msgs ++ [(st.reads,
          { conversationId := conversationId, agentPersonalityId := agent.id,
            content := completion.content, messageType := "standard",
            model := agent.model, temperature := agent.temperature,
            tokenCount := completion.promptTokens +
              completion.completionTokens })]) ∧
    (provider k agent.model = Except.error e →
      isModelUnavailableError e.message = false →
      completionWithFallback provider models k agent.model =
        ([agent.model], k + 1, Except.error e) ∧
      (runAgents env conversationId [agent] st).msgs = st.msgs ∧
      (runAgents env conversationId [agent] st).aborted = true) := by
  constructor
  · intro h1 h2 h3
    have hcwf : completionWithFallback provider models k agent.model =
        ([agent.model, validatedFallbackModel models], k + 2,
          Except.ok completion) := by
      simp [completionWithFallback, h1, h2, h3]
    refine ⟨hcwf, ?_⟩
    rw [← henv, ← hmodels] at hcwf
    simp [runAgents, hst, hcalls, hcwf]
  · intro h1 h2
    have hcwf : completionWithFallback provider models k agent.model =
        ([agent.model], k + 1, Except.error e) := by
      simp [completionWithFallback, h1, h2]
    rw [← henv, ← hmodels] at hcwf
    refine ⟨by rw [henv, hmodels] at hcwf; exact hcwf, ?_, ?_⟩ <;>
      simp [runAgents, hst, hcalls, hcwf]

/-- Witness for C3: the agent configured with "bad-model" in an environment
whose catalog holds the known-good small model. -/
theorem completion_model_fallback_witness :
    completionWithFallback demoProvider ["llama3-8b-8192"] 0 "bad-model" =
      (["bad-model", "llama3-8b-8192"], 2,
        Except.ok { content := "fallback reply", promptTokens := 10,
                    completionTokens := 20 }) ∧
    (runAgents demoEnvFallback 7 [demoAgent] ⟨[], [], 1, 0, false⟩).msgs =
      [(1, { conversationId := 7, agentPersonalityId := 1,
             content := "fallback reply", messageType := "standard",
             model := "bad-model", temperature := some "0.7",
             tokenCount := 30 })] := by
  have h := (completion_model_fallback demoEnvFallback demoProvider
    ["llama3-8b-8192"] 0 7 demoAgent ⟨[], [], 1, 0, false⟩
    { message := "The model bad-model does not exist" }
    { content := "fallback reply", promptTokens := 10,
      completionTokens := 20 }
    rfl rfl rfl rfl).1 (by rfl) (by decide) (by rfl)
  exact ⟨h.1, h.2⟩

theorem agents_resolve_map_id (personalities : Nat → Option AgentPersonality)
    (ids : List Nat)
    (hres : ∀ i ∈ ids, ∃ a, personalities i = some a ∧ a.id = i) :
    (ids.filterMap personalities).map AgentPersonality.id = ids := by
  induction ids with
  | nil => rfl
  | cons i rest ih =>
    obtain ⟨a, ha, hid⟩ := hres i (List.mem_cons_self i rest)
    rw [List.filterMap_cons, ha]
    simp only [List.map_cons, hid]
    rw [ih (fun j hj => hres j (List.mem_cons_of_mem i hj))]

theorem runAgents_all_ok (env : OrchEnv) (conversationId : Nat)
    (agents : List AgentPersonality)
    (hlive : ∀ r, env.liveAt r = true)
    (hok : ∀ k m, (env.provider k m).isOk = true) :
    ∀ st : RunState, st.aborted = false →
      ((runAgents env conversationId agents st).msgs.map
          (fun p => p.2.agentPersonalityId) =
        st.msgs.map (fun p => p.2.agentPersonalityId) ++
          agents.map AgentPersonality.id) ∧
      (runAgents env conversationId agents st).aborted = false := by
  induction agents with
  | nil =>
    intro st hab
    simp [runAgents, hab]
  | cons a rest ih =>
    intro st hab
    obtain ⟨c, hc⟩ : ∃ c, env.provider st.calls a.model = Except.ok c := by
      have h := hok st.calls a.model
      cases hpc : env.provider st.calls a.model with
      | ok c => exact ⟨c, rfl⟩
      | error e => rw [hpc] at h; simp [Except.isOk, Except.toBool] at h
    have hcwf : completionWithFallback env.provider env.availableModels
        st.calls a.model = ([a.model], st.calls + 1, Except.ok c) := by
      simp [completionWithFallback, hc]
    have hstep : runAgents env conversationId (a :: rest) st =
        runAgents env conversationId rest
          { msgs := st.msgs ++ [(st.reads,
              { conversationId := conversationId, agentPersonalityId := a.id,
                content := c.content, messageType := "standard",
                model := a.model, temperature := a.temperature,
                tokenCount := c.promptTokens + c.completionTokens })],
            events := st.events ++
              [(st.reads, WsEvent.NEW_MESSAGE a.id c.content)],
            reads := st.reads + 1, calls := st.calls + 1,
            aborted := !(env.liveAt st.reads) } := by
      rw [runAgents, hab, hcwf]
      simp
    have hab' : (!(env.liveAt st.reads)) = false := by
      rw [hlive st.reads]; rfl
    rw [hab'] at hstep
    rw [hstep]
    obtain ⟨hmsgs, habf⟩ := ih
      { msgs := st.msgs ++ [(st.reads,
          { conversationId := conversationId, agentPersonalityId := a.id,
            content := c.content, messageType := "standard",
            model := a.model, temperature := a.temperature,
            tokenCount := c.promptTokens + c.completionTokens })],
        events := st.events ++ [(st.reads, WsEvent.NEW_MESSAGE a.id c.content)],
        reads := st.reads + 1, calls := st.calls + 1, aborted := false } rfl
    refine ⟨?_, habf⟩
    rw [hmsgs]
    simp

theorem runTurns_all_ok (env : OrchEnv) (conversationId : Nat)
    (agents : List AgentPersonality)
    (hlive : ∀ r, env.liveAt r = true)
    (hok : ∀ k m, (env.provider k m).isOk = true) :
    ∀ (turns : Nat) (st : RunState), st.aborted = false →
      ((runTurns env conversationId agents turns st).msgs.map
          (fun p => p.2.agentPersonalityId) =
        st.msgs.map (fun p => p.2.agentPersonalityId) ++
          (List.replicate turns (agents.map AgentPersonality.id)).flatten) ∧
      (runTurns env conversationId agents turns st).aborted = false := by
  intro turns
  induction turns with
  | zero =>
    intro st hab
    simp [runTurns, hab]
  | succ t ih =>
    intro st hab
    have hstep : runTurns env conversationId agents (t + 1) st =
        runTurns env conversationId agents t
          (runAgents env conversationId agents
            { st with reads := st.reads + 1, aborted := false }) := by
      rw [runTurns, hab]
      simp [hlive st.reads]
    rw [hstep]
    obtain ⟨hmsgs1, hab1⟩ :=
      runAgents_all_ok env conversationId agents hlive hok
        { st with reads := st.reads + 1, aborted := false } rfl
    obtain ⟨hmsgs2, hab2⟩ := ih _ hab1
    refine ⟨?_, hab2⟩
    rw [hmsgs2, hmsgs1]
    simp [List.replicate_succ, List.append_assoc]

/-- C1: an orchestration run over the ordered agent id list whose lookups
all resolve, with at least 2 agents, whose conversation stays active and
whose completion calls all succeed, persists exactly `turnCount` repetitions
of the agent id list, in order — for `[A,B,C]` and `turnCount = 2` the
persisted agent ids are exactly `A,B,C,A,B,C` — and then ends the
conversation itself. -/
theorem orchestration_turn_order (env : OrchEnv) (conversationId : Nat)
    (ids : List Nat) (turnCount : Nat)
    (hres : ∀ i ∈ ids, ∃ a, env.personalities i = some a ∧ a.id = i)
    (hlen : 2 ≤ ids.length)
    (hlive : ∀ r, env.liveAt r = true)
    (hok : ∀ k m, (env.provider k m).isOk = true) :
    (orchestrateConversation env conversationId ids turnCount).msgs.map
        (fun p => p.2.agentPersonalityId) =
      (List.replicate turnCount ids).flatten ∧
    (orchestrateConversation env conversationId ids turnCount).endedRun =
      true := by
  have hmap : (ids.filterMap env.personalities).map AgentPersonality.id =
      ids := agents_resolve_map_id env.personalities ids hres
  have hlen' : ¬ (ids.filterMap env.personalities).length < 2 := by
    have h := congrArg List.length hmap
    rw [List.length_map] at h
    omega
  obtain ⟨hmsgs, hab⟩ :=
    runTurns_all_ok env conversationId (ids.filterMap env.personalities)
      hlive hok turnCount ⟨[], [], 1, 0, false⟩ rfl
  rw [hmap] at hmsgs
  simp only [orchestrateConversation, hlive 0, hlen', if_false,
    Bool.not_true, if_neg]
  simp [hab, hmsgs]

/-- Witness for C1: agents `[1,2,3]` and `turnCount = 2` yield the persisted
agent id sequence `1,2,3,1,2,3`. -/
theorem orchestration_turn_order_witness :
    (orchestrateConversation demoEnvLive 7 [1, 2, 3] 2).msgs.map
        (fun p => p.2.agentPersonalityId) =
      [1, 2, 3, 1, 2, 3] := by
  have h := (orchestration_turn_order demoEnvLive 7 [1, 2, 3] 2
    (by intro i _; exact ⟨_, rfl, rfl⟩) (by decide)
    (fun r => rfl) (fun k m => rfl)).1
  simpa using h

theorem runAgents_aborted_id (env : OrchEnv) (conversationId : Nat)
    (agents : List AgentPersonality) (st : RunState)
    (h : st.aborted = true) :
    runAgents env conversationId agents st = st := by
  cases agents with
  | nil => rfl
  | cons a rest => rw [runAgents, h]; simp

theorem runTurns_aborted_id (env : OrchEnv) (conversationId : Nat)
    (agents : List AgentPersonality) (turns : Nat) (st : RunState)
    (h : st.aborted = true) :
    runTurns env conversationId agents turns st = st := by
  cases turns with
  | zero => rfl
  | succ t => rw [runTurns, h]; simp

theorem runAgents_stoppedAt (env : OrchEnv) (conversationId f : Nat)
    (hlive : ∀ r, env.liveAt r = decide (r < f)) :
    ∀ (agents : List AgentPersonality) (st : RunState), StoppedAt f st →
      StoppedAt f (runAgents env conversationId agents st) := by
  intro agents
  induction agents with
  | nil =>
    intro st h
    simpa [runAgents] using h
  | cons a rest ih =>
    intro st h
    cases hab : st.aborted with
    | true =>
      rw [runAgents_aborted_id env conversationId _ st hab]
      exact h
    | false =>
      rcases hcw : completionWithFallback env.provider env.availableModels
          st.calls a.model with ⟨calls, k', res⟩
      cases res with
      | error e =>
        have hstep : runAgents env conversationId (a :: rest) st =
            { st with calls := k', aborted := true } := by
          rw [runAgents, hab, hcw]
          simp
        rw [hstep]
        exact ⟨h.1, h.2.1, fun h' => by simp at h'⟩
      | ok completion =>
        have hreads : st.reads ≤ f := h.2.2 hab
        have hstep : runAgents env conversationId (a :: rest) st =
            runAgents env conversationId rest
              { msgs := st.msgs ++ [(st.reads,
                  { conversationId := conversationId,
                    agentPersonalityId := a.id,
                    content := completion.content, messageType := "standard",
                    model := a.model, temperature := a.temperature,
                    tokenCount := completion.promptTokens +
                      completion.completionTokens })],
                events := st.events ++
                  [(st.reads, WsEvent.NEW_MESSAGE a.id completion.content)],
                reads := st.reads + 1, calls := k',
                aborted := !(env.liveAt st.reads) } := by
          rw [runAgents, hab, hcw]
          simp
        rw [hstep]
        apply ih
        refine ⟨?_, ?_, ?_⟩
        · intro p hp
          rcases List.mem_append.1 hp with hp' | hp'
          · exact h.1 p hp'
          · rcases List.mem_singleton.1 hp' with rfl
            exact hreads
        · intro p hp
          rcases List.mem_append.1 hp with hp' | hp'
          · exact h.2.1 p hp'
          · rcases List.mem_singleton.1 hp' with rfl
            exact ⟨hreads, by simp⟩
        · intro h'
          have h'' : (!(env.liveAt st.reads)) = false := h'
          have hv : env.liveAt st.reads = true := by
            cases hv : env.liveAt st.reads with
            | true => rfl
            | false => rw [hv] at h''; simp at h''
          rw [hlive st.reads] at hv
          have := of_decide_eq_true hv
          show st.reads + 1 ≤ f
          omega

theorem runTurns_stoppedAt (env : OrchEnv) (conversationId f : Nat)
    (agents : List AgentPersonality)
    (hlive : ∀ r, env.liveAt r = decide (r < f)) :
    ∀ (turns : Nat) (st : RunState), StoppedAt f st →
      StoppedAt f (runTurns env conversationId agents turns st) := by
  intro turns
  induction turns with
  | zero =>
    intro st h
    simpa [runTurns] using h
  | succ t ih =>
    intro st h
    cases hab : st.aborted with
    | true =>
      rw [runTurns_aborted_id env conversationId agents _ st hab]
      exact h
    | false =>
      cases hl : env.liveAt st.reads with
      | false =>
        have hstep : runTurns env conversationId agents (t + 1) st =
            { st with reads := st.reads + 1, aborted := true } := by
          rw [runTurns, hab]
          simp [hl]
        rw [hstep]
        exact ⟨h.1, h.2.1, fun h' => by simp at h'⟩
      | true =>
        have hr : st.reads < f := by
          have hd := hlive st.reads
          rw [hl] at hd
          exact of_decide_eq_true hd.symm
        have hstep : runTurns env conversationId agents (t + 1) st =
            runTurns env conversationId agents t
              (runAgents env conversationId agents
                { st with reads := st.reads + 1, aborted := false }) := by
          rw [runTurns, hab]
          simp [hl]
        rw [hstep]
        apply ih
        apply runAgents_stoppedAt env conversationId f hlive
        exact ⟨h.1, h.2.1, fun _ => by show st.reads + 1 ≤ f; omega⟩

theorem runAgents_reads_growth (env : OrchEnv) (conversationId : Nat) :
    ∀ (agents : List AgentPersonality) (st : RunState),
      (runAgents env conversationId agents st).aborted = false →
      (runAgents env conversationId agents st).reads =
        st.reads + agents.length := by
  intro agents
  induction agents with
  | nil =>
    intro st _
    simp [runAgents]
  | cons a rest ih =>
    intro st hout
    cases hab : st.aborted with
    | true =>
      rw [runAgents_aborted_id env conversationId _ st hab] at hout
      rw [hab] at hout
      cases hout
    | false =>
      rcases hcw : completionWithFallback env.provider env.availableModels
          st.calls a.model with ⟨calls, k', res⟩
      cases res with
      | error e =>
        have hstep : runAgents env conversationId (a :: rest) st =
            { st with calls := k', aborted := true } := by
          rw [runAgents, hab, hcw]
          simp
        rw [hstep] at hout
        simp at hout
      | ok completion =>
        have hstep : runAgents env conversationId (a :: rest) st =
            runAgents env conversationId rest
              { msgs := st.msgs ++ [(st.reads,
                  { conversationId := conversationId,
                    agentPersonalityId := a.id,
                    content := completion.content, messageType := "standard",
                    model := a.model, temperature := a.temperature,
                    tokenCount := completion.promptTokens +
                      completion.completionTokens })],
                events := st.events ++
                  [(st.reads, WsEvent.NEW_MESSAGE a.id completion.content)],
                reads := st.reads + 1, calls := k',
                aborted := !(env.liveAt st.reads) } := by
          rw [runAgents, hab, hcw]
          simp
        rw [hstep] at hout ⊢
        rw [ih _ hout]
        simp
        omega

theorem runTurns_reads_growth (env : OrchEnv) (conversationId : Nat)
    (agents : List AgentPersonality) :
    ∀ (turns : Nat) (st : RunState),
      (runTurns env conversationId agents turns st).aborted = false →
      (runTurns env conversationId agents turns st).reads =
        st.reads + turns * (agents.length + 1) := by
  intro turns
  induction turns with
  | zero =>
    intro st _
    simp [runTurns]
  | succ t ih =>
    intro st hout
    cases hab : st.aborted with
    | true =>
      rw [runTurns_aborted_id env conversationId agents _ st hab] at hout
      rw [hab] at hout
      cases hout
    | false =>
      cases hl : env.liveAt st.reads with
      | false =>
        have hstep : runTurns env conversationId agents (t + 1) st =
            { st with reads := st.reads + 1, aborted := true } := by
          rw [runTurns, hab]
          simp [hl]
        rw [hstep] at hout
        cases hout
      | true =>
        have hstep : runTurns env conversationId agents (t + 1) st =
            runTurns env conversationId agents t
              (runAgents env conversationId agents
                { st with reads := st.reads + 1, aborted := false }) := by
          rw [runTurns, hab]
          simp [hl]
        rw [hstep] at hout ⊢
        have hinner : (runAgents env conversationId agents
            { st with reads := st.reads + 1, aborted := false }).aborted =
            false := by
          cases hv : (runAgents env conversationId agents
              { st with reads := st.reads + 1, aborted := false }).aborted with
          | false => rfl
          | true =>
            rw [runTurns_aborted_id env conversationId agents t _ hv] at hout
            rw [hv] at hout
            cases hout
        rw [ih _ hout, runAgents_reads_growth env conversationId agents _
          hinner]
        simp
        ring

/-- C2: when the conversation's active flag becomes false between two agent
calls of a run — the run's liveness reads observe active exactly below read
index `f`, with `f` within the run's reads — the run persists and broadcasts
nothing after that failing read (every tag is at most `f`), it never emits
the conversation-end broadcast itself, and the `/end` handler that flipped
the flag emits the conversation-end broadcast exactly once, at the stop
point, so the combined event stream carries exactly one `END_CONVERSATION`
(never two, never one before the stop). -/
theorem orchestration_abort_on_stop (env : OrchEnv) (conversationId : Nat)
    (ids : List Nat) (turnCount f : Nat) (userId : Option Nat)
    (conv : Conversation) (now : Nat) (out : RunOut)
    (hlive : ∀ r, env.liveAt r = decide (r < f))
    (hf : f ≤ turnCount * ((ids.filterMap env.personalities).length + 1))
    (howner : truthyId conv.userId = false ∨ conv.userId = userId)
    (hout : out = orchestrateConversation env conversationId ids turnCount) :
    (∀ p ∈ out.msgs, p.1 ≤ f) ∧
    (∀ p ∈ out.events, p.1 ≤ f ∧ p.2 ≠ WsEvent.END_CONVERSATION) ∧
    out.endedRun = false ∧
    (out.events.map Prod.snd ++
        (endConversationHandler true userId (some conv) now).2).count
      WsEvent.END_CONVERSATION = 1 := by
  have hhandler : (endConversationHandler true userId (some conv) now).2 =
      [WsEvent.END_CONVERSATION] := by
    rcases howner with h | h
    · simp [endConversationHandler, h]
    · simp [endConversationHandler, h]
  have main : (∀ p ∈ out.msgs, p.1 ≤ f) ∧
      (∀ p ∈ out.events, p.1 ≤ f ∧ p.2 ≠ WsEvent.END_CONVERSATION) ∧
      out.endedRun = false := by
    subst hout
    cases h0 : env.liveAt 0 with
    | false =>
      have hempty : orchestrateConversation env conversationId ids turnCount =
          ⟨[], [], false⟩ := by
        rw [orchestrateConversation, h0]
        simp
      rw [hempty]
      exact ⟨by simp, by simp, rfl⟩
    | true =>
      have h0f : 0 < f := by
        have hd := hlive 0
        rw [h0] at hd
        exact of_decide_eq_true hd.symm
      by_cases hn : (ids.filterMap env.personalities).length < 2
      · have hempty : orchestrateConversation env conversationId ids
            turnCount = ⟨[], [], false⟩ := by
          rw [orchestrateConversation, h0]
          simp [hn]
        rw [hempty]
        exact ⟨by simp, by simp, rfl⟩
      · have hSt : StoppedAt f (runTurns env conversationId
            (ids.filterMap env.personalities) turnCount ⟨[], [], 1, 0, false⟩) :=
          runTurns_stoppedAt env conversationId f _ hlive turnCount _
            ⟨by simp, by simp, fun _ => h0f⟩
        have habort : (runTurns env conversationId
            (ids.filterMap env.personalities) turnCount
              ⟨[], [], 1, 0, false⟩).aborted = true := by
          cases hv : (runTurns env conversationId
              (ids.filterMap env.personalities) turnCount
                ⟨[], [], 1, 0, false⟩).aborted with
          | true => rfl
          | false =>
            have hg := runTurns_reads_growth env conversationId _ turnCount
              ⟨[], [], 1, 0, false⟩ hv
            have hb := hSt.2.2 hv
            rw [hg] at hb
            simp only at hb
            omega
        have hres : orchestrateConversation env conversationId ids turnCount =
            ⟨(runTurns env conversationId (ids.filterMap env.personalities)
                turnCount ⟨[], [], 1, 0, false⟩).msgs,
              (runTurns env conversationId (ids.filterMap env.personalities)
                turnCount ⟨[], [], 1, 0, false⟩).events, false⟩ := by
          rw [orchestrateConversation, h0]
          simp [hn, habort]
        rw [hres]
        exact ⟨hSt.1, hSt.2.1, rfl⟩
  refine ⟨main.1, main.2.1, main.2.2, ?_⟩
  rw [hhandler, List.count_append]
  have hzero : (out.events.map Prod.snd).count WsEvent.END_CONVERSATION =
      0 := by
    refine List.count_eq_zero.2 (fun hmem => ?_)
    obtain ⟨p, hp, hsnd⟩ := List.mem_map.1 hmem
    exact (main.2.1 p hp).2 hsnd
  rw [hzero]
  rfl

/-- Witness for C2: two agents, two turns, the end request landing during the
pacing delay after the second message (first failing read is read 3). -/
theorem orchestration_abort_on_stop_witness :
    ((orchestrateConversation demoEnvStop 7 [1, 2] 2).events.map Prod.snd ++
        (endConversationHandler true (some 1) (some unownedConversation)
          99).2).count WsEvent.END_CONVERSATION = 1 ∧
    (orchestrateConversation demoEnvStop 7 [1, 2] 2).endedRun = false := by
  have h := orchestration_abort_on_stop demoEnvStop 7 [1, 2] 2 3 (some 1)
    unownedConversation 99 (orchestrateConversation demoEnvStop 7 [1, 2] 2)
    (fun r => rfl) (by decide) (Or.inl rfl) rfl
  exact ⟨h.2.2.2, h.2.2.1⟩

end DialogueForge
